import Mathlib

/-!
Verification development for the `astromatic_wrapper` package
(`astromatic_wrapper/api.py`): a shallow embedding of the `Astromatic`
class (command building, subprocess execution, XML result normalization,
per-frame execution and version querying) together with theorems about
the behaviour documented in the specification.

Python conventions modelled explicitly:
  * dictionaries are insertion-ordered association lists;
  * raised exceptions become `Except` errors (`PyError`);
  * side effects on the filesystem and on shared mutable dictionaries are
    threaded through an explicit state (`FS`): a store of configuration
    dictionaries addressed by reference (Python object identity), the
    list of files written, and the list of warnings emitted via
    `warnings.warn`;
  * the behaviour of spawned subprocesses and of the third-party votable
    parser is an environment parameter (`Env`).
-/

namespace AstromaticWrapper

/-- Python `needle in hay` substring test on strings. -/
def pyContains (needle hay : String) : Bool :=
  hay.data.tails.any fun t => needle.data.isPrefixOf t

/-- Split a character list on single space characters (used by the
spec-side flag-token re-parser; Python `str.split(' ')` keeps empty
chunks, as does this function). -/
def splitSp : List Char → List (List Char)
  | [] => [[]]
  | c :: cs =>
    match splitSp cs with
    | r :: rs => if c = ' ' then [] :: r :: rs else (c :: r) :: rs
    | [] => []

/-- Fuel-driven worker for `pyReplace`.  With fuel at least the length of
the remaining text and a nonempty needle this performs exactly Python's
left-to-right non-overlapping replacement. -/
def replAux (needle repl : List Char) : List Char → Nat → List Char
  | h, 0 => h
  | [], _ => []
  | c :: cs, fuel + 1 =>
    if needle.isPrefixOf (c :: cs) then
      repl ++ replAux needle repl ((c :: cs).drop needle.length) fuel
    else
      c :: replAux needle repl cs fuel

/-- Python `hay.replace(needle, repl)` for a nonempty needle (every use in
the source passes a nonempty needle; Python's behaviour on an empty
needle, inserting between every character, is not needed and an empty
needle leaves the string unchanged here). -/
def pyReplace (hay needle repl : String) : String :=
  String.mk (replAux needle.data repl.data hay.data hay.data.length)

/-- Python `s.startswith(pre)`. -/
def pyStartsWith (s pre : String) : Bool :=
  pre.data.isPrefixOf s.data

/-- Python `s.endswith(suffix)` (used for the `cmd[-1] != ' '` check,
equivalent for nonempty strings). -/
def pyEndsWith (s suffix : String) : Bool :=
  suffix.data.isSuffixOf s.data

/-- Python `os.path.join a b` for the shapes used in the source
(`b` is the relative name `sex.param`). -/
def pyJoin (a b : String) : String :=
  if pyStartsWith b "/" then b
  else if a = "" then b
  else if pyEndsWith a "/" then a ++ b
  else a ++ "/" ++ b

/-- Python `sep.join(xs)`. -/
def sjoin (sep : String) : List String → String
  | [] => ""
  | [x] => x
  | x :: y :: xs => x ++ sep ++ sjoin sep (y :: xs)

/-- A configuration value: the source stores strings or booleans in the
`config` dictionary (`build_cmd` serializes booleans as `Y`/`N` and
concatenates every other value as a string). -/
inductive ConfigVal where
  | str (s : String)
  | bool (b : Bool)
  deriving DecidableEq, Repr

/-- A Python dict from option names to values, as an insertion-ordered
association list (iteration order of `for param in kwargs['config']`). -/
abbrev Config := List (String × ConfigVal)

/-- Python `k in d`. -/
def dictContains (d : Config) (k : String) : Bool :=
  d.any fun p => p.1 == k

/-- Python `d[k]` as an `Option`. -/
def dictLookup (d : Config) (k : String) : Option ConfigVal :=
  (d.find? fun p => p.1 == k).map (fun p => p.2)

/-- Python `d[k] = v`: overwrite in place keeping the position when the
key exists, append otherwise. -/
def dictInsert (d : Config) (k : String) (v : ConfigVal) : Config :=
  if dictContains d k then d.map (fun p => if p.1 == k then (k, v) else p)
  else d ++ [(k, v)]

/-- Serialization of one configuration value in `build_cmd`: booleans
become `Y`/`N`, strings are used verbatim. -/
def valStr : ConfigVal → String
  | .bool true => "Y"
  | .bool false => "N"
  | .str s => s

/-- Python truthiness of a configuration value (used by `run_frames` on
`kwargs['config']['WRITE_XML']`). -/
def pyTruthy : ConfigVal → Bool
  | .str s => s ≠ ""
  | .bool b => b

/-- The module-level `codes` mapping of tool identities to default
executable names (the commented-out entries of the source are absent from
the Python dict as well). -/
def codes : List (String × String) :=
  [("PSFEx", "psfex"), ("SCAMP", "scamp"), ("SExtractor", "sex"), ("SWarp", "swarp")]

/-- Lookup in `codes`. -/
def lookupCode (c : String) : Option String :=
  (codes.find? fun p => p.1 == c).map (fun p => p.2)

/-- Exceptions that the embedded code can raise. -/
inductive PyError where
  /-- `AstromaticError(msg)` raised by the source. -/
  | astromaticError (msg : String)
  /-- The `TypeError`/`AttributeError` raised by `os.path.join(None, ...)`
  when `temp_path` is `None`, and by string operations on non-strings. -/
  | typeError
  /-- An exception escaping `astropy.io.votable.parse` (malformed or
  missing XML report file; also covers the `open` of a missing file in
  the SExtractor rewrite step, which precedes the parse). -/
  | xmlParseError
  /-- An exception escaping `Table.read(votable, table_id='Warnings')`
  when the parsed document has no `Warnings` table. -/
  | tableReadError
  /-- `IndexError` from `cmd[-1]` on an empty command string. -/
  | indexError
  deriving DecidableEq, Repr

/-- An `Astromatic` instance.  The `config` attribute is a reference
(`configRef`) into the store of dictionaries because Python dictionaries
are shared by reference: `self.config` aliases the caller's dict (or the
constructor's shared mutable default `config={}` when none was given).
The `cmd` field models the `cmd` attribute injected by `setattr` when it
was passed to `__init__` (`none` = attribute absent; other ad-hoc
attributes are not used by the claims). -/
structure Astromatic where
  code : String
  temp_path : Option String
  configRef : Nat
  config_file : Option String
  store_output : Bool
  cmd : Option String
  deriving DecidableEq, Repr

/-- The reference of the shared dictionary created once for the mutable
default argument `config={}` of `Astromatic.__init__`. -/
def defaultConfigRef : Nat := 0

/-- Embedding of `Astromatic.__init__`: stores the given attributes; when
no `config` is supplied the instance aliases the shared default dict
(`defaultConfigRef`), exactly as Python's mutable default argument does. -/
def mkAstromatic (code : String) (temp_path : Option String)
    (config : Option Nat) (config_file : Option String)
    (store_output : Bool) (cmd : Option String) : Astromatic :=
  { code := code, temp_path := temp_path,
    configRef := config.getD defaultConfigRef,
    config_file := config_file, store_output := store_output, cmd := cmd }

/-- The `**kwargs` of `build_cmd`.  Every field is optional because the
merge loop `for attr, attr_val in vars(self).items(): if attr not in
kwargs: ...` distinguishes key presence from the stored value; for
`temp_path` and `config_file` the outer `Option` is key presence and the
inner `Option` is the Python value possibly being `None`. -/
structure BuildKwargs where
  code : Option String := none
  temp_path : Option (Option String) := none
  config : Option Nat := none
  config_file : Option (Option String) := none
  store_output : Option Bool := none
  cmd : Option String := none
  params : Option (List String) := none
  deriving DecidableEq, Repr

/-- The merge loop of `build_cmd`: every instance attribute missing from
the per-call kwargs is filled in from the instance. -/
def mergeKwargs (self : Astromatic) (kw : BuildKwargs) : BuildKwargs :=
  { code := kw.code <|> some self.code,
    temp_path := kw.temp_path <|> some self.temp_path,
    config := kw.config <|> some self.configRef,
    config_file := kw.config_file <|> some self.config_file,
    store_output := kw.store_output <|> some self.store_output,
    cmd := kw.cmd <|> self.cmd,
    params := kw.params }

/-- The mutable world threaded through `build_cmd`: the store of shared
configuration dictionaries, the files written (path and lines), and the
warnings emitted through `warnings.warn`. -/
structure FS where
  store : List Config
  files : List (String × List String)
  warns : List String
  deriving DecidableEq, Repr

/-- Message of the `AstromaticError` raised when neither `params` nor
`PARAMETERS_NAME` is available for SExtractor. -/
def noParamsMsg : String :=
  "To run SExtractor yo must either supply a \x27params\x27 list of parameters " ++
  "or a config keyword \x27PARAMETERS_NAME\x27 that points to a parameters file"

/-- Warning emitted when both `params` and `PARAMETERS_NAME` are given. -/
def multiParamMsg : String :=
  "Multiple parameter files specified, using \x27params\x27"

/-- Message of the (dead) `temp_path` guard in `build_cmd`. -/
def tempPathMsg : String :=
  "You must either supply a \x27PARAMETERS_NAME\x27 in \x27config\x27 or " ++
  "a \x27temp_path\x27 to store the temporary parameters file"

/-- Message raised when the code is unknown and no `cmd` is given. -/
def badCodeMsg : String :=
  "You must either supply a valid astromatic \x27code\x27 name or " ++
  "a \x27cmd\x27 to run"

/-- Tail of `build_cmd` (from the comment `Get the correct command for
the given code` onwards): resolve the executable, append the filenames,
the optional `-c config_file`, and serialize the configuration
dictionary (passed here as `cfg`, the dict currently referenced by the
merged kwargs).  `resolveCmd` is the executable-resolution step:
explicit `cmd` override, else lookup of the code in `codes`. -/
def resolveCmd (kw : BuildKwargs) : Except PyError String :=
  match kw.cmd with
  | some c => .ok c
  | none =>
    match kw.code with
    | some code =>
      match lookupCode code with
      | some exec => .ok exec
      | none => .error (.astromaticError badCodeMsg)
    | none => .error (.astromaticError badCodeMsg)

def finishCmd (kw : BuildKwargs) (cfg : Config) (filenames : List String) :
    Except PyError (String × BuildKwargs) :=
  match resolveCmd kw with
  | .error e => .error e
  | .ok c =>
    if c = "" then .error .indexError
    else
      let c := if ¬ pyEndsWith c " " then c ++ " " else c
      let c := c ++ sjoin " " filenames
      let c :=
        match kw.config_file with
        | some (some cf) => c ++ " -c " ++ cf
        | _ => c
      let c := cfg.foldl (fun acc p => acc ++ " -" ++ p.1 ++ " " ++ valStr p.2) c
      .ok (c, kw)

/-- Embedding of `Astromatic.build_cmd`.  `filenames` is already a list
(the source normalizes a single string to a one-element list first).
Returns the updated world together with either the raised exception or
the `(cmd, kwargs)` pair of the source. -/
def build_cmd (self : Astromatic) (filenames : List String)
    (kw0 : BuildKwargs) (fs : FS) :
    FS × Except PyError (String × BuildKwargs) :=
  let kw := mergeKwargs self kw0
  let cfgRef := kw.config.getD defaultConfigRef
  if kw.code = some "SExtractor" then
    match kw.params with
    | some ps =>
      let cfg := fs.store.getD cfgRef []
      let fs1 :=
        if dictContains cfg "PARAMETERS_NAME" then
          { fs with warns := fs.warns ++ [multiParamMsg] }
        else fs
      match kw.temp_path with
      | none =>
        -- dead guard of the source: after the merge loop the key
        -- `temp_path` is always present in kwargs
        (fs1, .error (.astromaticError tempPathMsg))
      | some none =>
        -- os.path.join(None, 'sex.param') raises
        (fs1, .error .typeError)
      | some (some t) =>
        let param_name := pyJoin t "sex.param"
        let fs2 := { fs1 with files := fs1.files ++ [(param_name, ps)] }
        let cfg2 := dictInsert (fs2.store.getD cfgRef []) "PARAMETERS_NAME"
          (.str param_name)
        let fs3 := { fs2 with store := fs2.store.set cfgRef cfg2 }
        (fs3, finishCmd kw cfg2 filenames)
    | none =>
      let cfg := fs.store.getD cfgRef []
      if dictContains cfg "PARAMETERS_NAME" then
        (fs, finishCmd kw cfg filenames)
      else
        (fs, .error (.astromaticError noParamsMsg))
  else
    (fs, finishCmd kw (fs.store.getD cfgRef []) filenames)

/-- Observable behaviour of one spawned command. -/
structure ProcBehavior where
  outputLines : List String := []
  exitCode : Int := 0

/-- One row of a warnings table (astropy table row; `frame` is the
`frame` column added by `run_frames`). -/
structure WRow where
  msg : String := ""
  frame : Option Int := none
  deriving DecidableEq, Repr

/-- A parsed warnings table with its provenance metadata
(`meta['filename']`). -/
structure WTable where
  rows : List WRow
  filename : Option String := none
  deriving DecidableEq, Repr

/-- Outcome of parsing one XML report file, abstracting the votable
library: the value of the `Error_Msg` param if one is present, and the
rows of the `Warnings` table (`none` when `Table.read` would raise).
The in-place SExtractor rewrite that strips embedded `<fits` lines
before parsing is absorbed into this abstraction (it only affects
whether the parse succeeds, which the environment already decides). -/
structure XmlDoc where
  errorMsgParam : Option String := none
  warningsRows : Option (List WRow) := none

/-- The environment: what each spawned command does, and the parse
outcome for each XML report path (`none` = the parse, or the preceding
`open` of the file, raises). -/
structure Env where
  proc : String → ProcBehavior
  xml : String → Option XmlDoc

/-- The Outcome Record dictionary.  `none` fields model absent keys
(for `run_frames` the `warnings` key is present but may hold Python
`None`, which is also modelled as `none`; the claims only inspect the
table when one exists). -/
structure RunResult where
  status : String
  error_msg : Option String := none
  output : Option (List String) := none
  warnings : Option WTable := none
  deriving DecidableEq, Repr

/-- Python `line.lower()` (character-wise lowercasing; ASCII suffices
for the `error` marker detection the source performs with it). -/
def pyLower (s : String) : String :=
  String.mk (s.data.map Char.toLower)

/-- Python `'error' in line.lower()`. -/
def errLine (line : String) : Bool :=
  pyContains "error" (pyLower line)

/-- The captured-mode scan loop of `runCmd`: first line containing
`error` (case-insensitively) flips the status and becomes `error_msg`,
then the loop breaks. -/
def scanLines (r : RunResult) : List String → RunResult
  | [] => r
  | l :: ls =>
    if errLine l then { r with status := "error", error_msg := some l }
    else scanLines r ls

/-- Message of the `AstromaticError` raised at the end of `runCmd`. -/
def execErrMsg (code : String) (em : Option String) : String :=
  "Error in \x27" ++ code ++ "\x27 execution" ++
    (match em with
     | some m => ": " ++ m
     | none => "")

/-- Streamed branch of `runCmd` (`store_output` false): status from
`subprocess.call`; on a positive exit status with a known XML path the
`Error_Msg` param is looked up in the strictly parsed report. -/
def runStream (this_cmd : String) (xml_name : Option String) (env : Env) :
    Except PyError RunResult :=
  let status := (env.proc this_cmd).exitCode
  if status > 0 then
    match xml_name with
    | none => .ok { status := "error" }
    | some nm =>
      match env.xml nm with
      | none => .error .xmlParseError
      | some doc => .ok { status := "error", error_msg := doc.errorMsgParam }
  else .ok { status := "success" }

/-- The per-frame suffixing of the XML report path in `runCmd`
(`xml_name.replace('.xml', '-{frame}.xml')` when a frame is given). -/
def xmlFrameName (nm0 : String) (frame : Option String) : String :=
  match frame with
  | none => nm0
  | some f => pyReplace nm0 ".xml" ("-" ++ f ++ ".xml")

/-- Warnings block of `runCmd`: when an XML path is known, suffix it
with the frame tag, rewrite (SExtractor) and parse it, read the
`Warnings` table, fill masked cells and attach provenance metadata. -/
def runWarnings (xml_name : Option String) (frame : Option String)
    (env : Env) (r1 : RunResult) : Except PyError RunResult :=
  match xml_name with
  | none => .ok r1
  | some nm0 =>
    match env.xml (xmlFrameName nm0 frame) with
    | none => .error .xmlParseError
    | some doc =>
      match doc.warningsRows with
      | none => .error .tableReadError
      | some rows =>
        .ok { r1 with warnings := some ⟨rows, some (xmlFrameName nm0 frame)⟩ }

/-- Final block of `runCmd`: raise `AstromaticError` when the status
is `error` and `raise_error` was requested. -/
def runRaise (code : String) (raise_error : Bool) (r2 : RunResult) :
    Except PyError RunResult :=
  if r2.status == "error" && raise_error then
    .error (.astromaticError (execErrMsg code r2.error_msg))
  else .ok r2

/-- Shared tail of `runCmd`: after the mode-specific first phase
(`step1`), run the warnings block and the final raise check. -/
def runRest (code : String) (xml_name : Option String) (raise_error : Bool)
    (frame : Option String) (env : Env) (step1 : Except PyError RunResult) :
    Except PyError RunResult :=
  match step1 with
  | .error e => .error e
  | .ok r1 =>
    match runWarnings xml_name frame env r1 with
    | .error e => .error e
    | .ok r2 => runRaise code raise_error r2

/-- Embedding of the private execution method of `Astromatic` (named
with a leading underscore in the source). -/
def runCmd (self : Astromatic) (this_cmd : String) (store_output : Bool)
    (xml_name : Option String) (raise_error : Bool) (frame : Option String)
    (env : Env) : Except PyError RunResult :=
  match store_output with
  | true =>
    runRest self.code xml_name raise_error frame env
      (.ok (scanLines
        { status := "success", output := some (env.proc this_cmd).outputLines }
        (env.proc this_cmd).outputLines))
  | false =>
    runRest self.code xml_name raise_error frame env
      (runStream this_cmd xml_name env)

/-- Reading a dict value that the source goes on to use as a string
(`str.replace` argument): a boolean there would raise `TypeError`. -/
def asStr : Option ConfigVal → Except PyError (Option String)
  | none => .ok none
  | some (.str s) => .ok (some s)
  | some (.bool _) => .error .typeError

/-- Message raised by `run_frames` for unsupported codes. -/
def frameUnsupportedMsg : String :=
  "The code you have specified is not currently supported " ++
  "using individual frames"

/-- Prelude of `run_frames`: extract the flag image, weight image and
XML report name from the configuration dict, rejecting codes other than
SExtractor and SWarp. -/
def preFrames (code : String) (cfg : Config) :
    Except PyError (Option String × Option String × Option String) :=
  match
    (if code = "SExtractor" then
      match asStr (dictLookup cfg "FLAG_IMAGE") with
      | .error e => .error e
      | .ok f =>
        match asStr (dictLookup cfg "WEIGHT_IMAGE") with
        | .error e => .error e
        | .ok w => .ok (f, w)
    else if code = "SWarp" then .ok (none, none)
    else .error (.astromaticError frameUnsupportedMsg) :
      Except PyError (Option String × Option String)) with
  | .error e => .error e
  | .ok fw =>
    match dictLookup cfg "WRITE_XML" with
    | some wv =>
      if pyTruthy wv then
        match dictLookup cfg "XML_NAME" with
        | some xv =>
          match asStr (some xv) with
          | .error e => .error e
          | .ok x => .ok (fw.1, fw.2, x)
        | none => .ok (fw.1, fw.2, none)
      else .ok (fw.1, fw.2, none)
    | none => .ok (fw.1, fw.2, none)

/-- Per-frame command rewriting of `run_frames`: append the
`[frame]` selector to every filename, the flag image, the weight image,
and suffix the XML report path. -/
def frameCmd (this_cmd : String) (filenames : List String)
    (flag weight xml_name : Option String) (f : Int) : String :=
  let fstr := "[" ++ toString f ++ "]"
  let c := filenames.foldl (fun c fn => pyReplace c fn (fn ++ fstr)) this_cmd
  let c :=
    match flag with
    | some fi => pyReplace c fi (fi ++ fstr)
    | none => c
  let c :=
    match weight with
    | some wi => pyReplace c wi (wi ++ fstr)
    | none => c
  match xml_name with
  | some x => pyReplace c x (pyReplace x ".xml" ("-" ++ toString f ++ ".xml"))
  | none => c

/-- The frame loop of `run_frames`: run each frame with
`store_output=False`, tagging each produced warnings table with its
frame index and concatenating non-empty tables in frame order
(`vstack`, which keeps the first table's metadata). -/
def framesLoop (self : Astromatic) (this_cmd : String)
    (filenames : List String) (flag weight xml_name : Option String)
    (raise_error : Bool) (env : Env) :
    List Int → Option WTable → Except PyError (Option WTable)
  | [], acc => .ok acc
  | f :: rest, acc =>
    let new_cmd := frameCmd this_cmd filenames flag weight xml_name f
    match runCmd self new_cmd false xml_name raise_error
        (some (toString f)) env with
    | .error e => .error e
    | .ok r =>
      let acc2 :=
        match r.warnings with
        | some w =>
          if w.rows.length > 0 then
            let tagged := w.rows.map fun row => { row with frame := some f }
            match acc with
            | none => some { w with rows := tagged }
            | some aw => some { aw with rows := aw.rows ++ tagged }
          else acc
        | none => acc
      framesLoop self this_cmd filenames flag weight xml_name raise_error env
        rest acc2

/-- Embedding of `Astromatic.run_frames`.  The final record of the
source is the literal `{'status': 'success', 'warnings': all_warnings}`
whatever the individual frame outcomes were. -/
def run_frames (self : Astromatic) (filenames : List String)
    (code : Option String) (frames : List Int) (raise_error : Bool)
    (kw : BuildKwargs) (fs : FS) (env : Env) :
    FS × Except PyError RunResult :=
  let code := code.getD self.code
  let kw := { kw with config := some (kw.config.getD self.configRef) }
  let cfgRef := kw.config.getD defaultConfigRef
  let cfg := fs.store.getD cfgRef []
  match preFrames code cfg with
  | .error e => (fs, .error e)
  | .ok (flag, weight, xml_name) =>
    match build_cmd self filenames { kw with code := some code } fs with
    | (fs1, .error e) => (fs1, .error e)
    | (fs1, .ok (this_cmd, _)) =>
      match framesLoop self this_cmd filenames flag weight xml_name
          raise_error env frames none with
      | .error e => (fs1, .error e)
      | .ok aw =>
        (fs1, .ok { status := "success", error_msg := none,
                    output := none, warnings := aw })

/-- Message of `get_version` when the code is unknown and no cmd given. -/
def versionBadCodeMsg : String :=
  "You must either supply a valid astromatic \x27code\x27 name or a \x27cmd\x27"

/-- Executable resolution of `get_version`: the explicit `cmd` argument
if given, else the `codes` lookup of the instance's code. -/
def get_version_resolve (self : Astromatic) (cmd : Option String) :
    Except PyError String :=
  match cmd with
  | none =>
    match lookupCode self.code with
    | some c => .ok c
    | none => .error (.astromaticError versionBadCodeMsg)
  | some c => .ok c

/-- Embedding of the command handling of `Astromatic.get_version`:
returns the pair (string actually passed to `subprocess.Popen`,
version-query command assembled from the resolved executable).  The
source passes the literal `'sex'` to `Popen` while the assembled
command is only ever used inside the failure message. -/
def get_version_cmds (self : Astromatic) (cmd : Option String) :
    Except PyError (String × String) :=
  match get_version_resolve self cmd with
  | .error e => .error e
  | .ok c =>
    if c = "" then .error .indexError
    else .ok ("sex", (if ¬ pyEndsWith c " " then c ++ " " else c) ++ "-v")

/-- Modelled from the spec: the round-trip property of §8 re-parses
the flag tokens of a built command, "each \x27-KEY value\x27 pair after
the filename/executable prefix and any \x27-c config_file\x27
insertion".  This turns consecutive token pairs back into configuration
entries, stripping the leading dash of each key token. -/
def pairsToConfig : List (List Char) → Config
  | k :: v :: rest =>
    (String.mk (k.drop 1), ConfigVal.str (String.mk v)) :: pairsToConfig rest
  | _ => []

/-- Modelled from the spec: split the built command on spaces, drop the
`numHead` prefix tokens (executable, filenames and any `-c config_file`
pair) and recover the configuration mapping from the flag tokens. -/
def parseCmdConfig (cmd : String) (numHead : Nat) : Config :=
  pairsToConfig ((splitSp cmd.data).drop numHead)

/-- Character-level form of the flag serialization loop of `build_cmd`:
one entry contributes `" -KEY value"`. -/
def serialChars : Config → List Char
  | [] => []
  | p :: rest =>
    (' ' :: '-' :: p.1.data) ++ (' ' :: (valStr p.2).data) ++ serialChars rest

/-- The flag tokens produced by one configuration mapping: the dashed
key token followed by the serialized value token, per entry. -/
def flagTokens : Config → List (List Char)
  | [] => []
  | p :: rest => ('-' :: p.1.data) :: (valStr p.2).data :: flagTokens rest

/-- Character-level form of `' '.join`. -/
def joinChars : List (List Char) → List Char
  | [] => []
  | [x] => x
  | x :: y :: xs => x ++ ' ' :: joinChars (y :: xs)

/-- A SWarp instance with no temp path, no config file, the shared
default configuration dict, and no `cmd` attribute. -/
def instSW : Astromatic :=
  { code := "SWarp", temp_path := none, configRef := 0,
    config_file := none, store_output := false, cmd := none }

/-- A SExtractor instance with no temp path (`temp_path=None`), the
shared default configuration dict, and no `cmd` attribute. -/
def instSX : Astromatic :=
  { code := "SExtractor", temp_path := none, configRef := 0,
    config_file := none, store_output := false, cmd := none }

/-- A world with one empty shared configuration dict and nothing
written or warned yet. -/
def fsEmpty : FS := { store := [[]], files := [], warns := [] }

/-- An environment where every command exits with the given status,
prints nothing, and every XML report fails to parse. -/
def envExit (n : Int) : Env :=
  { proc := fun _ => { outputLines := [], exitCode := n },
    xml := fun _ => none }

/-- An environment where every command succeeds with the given captured
output lines and every XML report fails to parse. -/
def envOut (ls : List String) : Env :=
  { proc := fun _ => { outputLines := ls, exitCode := 0 },
    xml := fun _ => none }

lemma string_mk_data (s : String) : String.mk s.data = s := by
  cases s
  rfl

lemma dictContains_eq_isSome (d : Config) (k : String) :
    dictContains d k = (dictLookup d k).isSome := by
  induction d with
  | nil => rfl
  | cons p rest ih =>
    simp only [dictContains, List.any_cons, dictLookup, List.find?_cons]
    cases hp : (p.1 == k) with
    | true => simp
    | false =>
      simp only [Bool.false_or]
      exact ih

lemma lookup_map_insert (d : Config) (k : String) (v : ConfigVal) :
    dictContains d k = true →
    dictLookup (d.map fun p => if p.1 == k then (k, v) else p) k = some v := by
  induction d with
  | nil => intro hc; simp [dictContains] at hc
  | cons p rest ih =>
    intro hc
    cases hp : (p.1 == k) with
    | true =>
      have hh : (if (p.1 == k) = true then (k, v) else p) = (k, v) := by
        simp [hp]
      simp only [List.map_cons, hh, dictLookup, List.find?_cons,
        beq_self_eq_true]
      rfl
    | false =>
      have hh : (if (p.1 == k) = true then (k, v) else p) = p := by
        simp [hp]
      simp only [dictContains, List.any_cons, hp, Bool.false_or] at hc
      simp only [List.map_cons, hh]
      simp only [dictLookup, List.find?_cons, hp]
      exact ih hc

lemma lookup_append_self (d : Config) (k : String) (v : ConfigVal) :
    dictContains d k = false →
    dictLookup (d ++ [(k, v)]) k = some v := by
  induction d with
  | nil => intro _; simp [dictLookup, List.find?_cons]
  | cons p rest ih =>
    intro hc
    simp only [dictContains, List.any_cons, Bool.or_eq_false_iff] at hc
    simp only [List.cons_append, dictLookup, List.find?_cons, hc.1]
    simpa only [dictLookup] using ih (by simp [dictContains, hc.2])

lemma dictLookup_insert_self (d : Config) (k : String) (v : ConfigVal) :
    dictLookup (dictInsert d k v) k = some v := by
  unfold dictInsert
  cases hc : dictContains d k with
  | true => simpa only [if_true] using lookup_map_insert d k v hc
  | false => simpa only [if_false] using lookup_append_self d k v hc

lemma dictContains_insert_self (d : Config) (k : String) (v : ConfigVal) :
    dictContains (dictInsert d k v) k = true := by
  rw [dictContains_eq_isSome, dictLookup_insert_self]
  rfl

lemma splitSp_cons_eq (c : Char) (cs : List Char) :
    splitSp (c :: cs) =
      match splitSp cs with
      | r :: rs => if c = ' ' then [] :: r :: rs else (c :: r) :: rs
      | [] => [] := rfl

lemma splitSp_ne_nil (l : List Char) : splitSp l ≠ [] := by
  induction l with
  | nil => simp [splitSp]
  | cons c cs ih =>
    simp only [splitSp]
    cases hs : splitSp cs with
    | nil => exact absurd hs ih
    | cons r rs =>
      cases hc : decide (c = ' ') with
      | true => simp [of_decide_eq_true hc]
      | false => simp [of_decide_eq_false hc]

lemma splitSp_append (xs ys : List Char) :
    splitSp (xs ++ ' ' :: ys) = splitSp xs ++ splitSp ys := by
  induction xs with
  | nil =>
    show splitSp (' ' :: ys) = splitSp [] ++ splitSp ys
    rw [splitSp_cons_eq]
    cases hs : splitSp ys with
    | nil => exact absurd hs (splitSp_ne_nil ys)
    | cons r rs => simp [splitSp]
  | cons c cs ih =>
    cases hs : splitSp cs with
    | nil => exact absurd hs (splitSp_ne_nil cs)
    | cons r rs =>
      show splitSp (c :: (cs ++ ' ' :: ys)) = splitSp (c :: cs) ++ splitSp ys
      rw [splitSp_cons_eq, splitSp_cons_eq, ih, hs, List.cons_append]
      by_cases hc : c = ' ' <;> simp [hc]

lemma splitSp_no_space (xs : List Char) (h : ' ' ∉ xs) : splitSp xs = [xs] := by
  induction xs with
  | nil => rfl
  | cons c cs ih =>
    have hc : ¬ c = ' ' := fun hcc => h (hcc ▸ List.mem_cons_self c cs)
    have hcs : ' ' ∉ cs := fun hm => h (List.mem_cons_of_mem c hm)
    simp only [splitSp, ih hcs]
    simp [hc]

lemma splitSp_join (xss : List (List Char)) (hne : xss ≠ [])
    (hxss : ∀ x ∈ xss, ' ' ∉ x) : splitSp (joinChars xss) = xss := by
  induction xss with
  | nil => exact absurd rfl hne
  | cons x rest ih =>
    cases rest with
    | nil =>
      simpa [joinChars] using splitSp_no_space x (hxss x (List.mem_cons_self x []))
    | cons y ys =>
      have hx : ' ' ∉ x := hxss x (List.mem_cons_self x (y :: ys))
      have hrest : ∀ z ∈ y :: ys, ' ' ∉ z := fun z hz =>
        hxss z (List.mem_cons_of_mem x hz)
      simp only [joinChars, splitSp_append, splitSp_no_space x hx,
        ih (by simp) hrest]
      rfl

lemma splitSp_serial (d : Config)
    (hd : ∀ p ∈ d, ' ' ∉ p.1.data ∧ ' ' ∉ (valStr p.2).data) :
    ∀ P : List Char, splitSp (P ++ serialChars d) = splitSp P ++ flagTokens d := by
  induction d with
  | nil => intro P; simp [serialChars, flagTokens]
  | cons p rest ih =>
    intro P
    have hp := hd p (List.mem_cons_self p rest)
    have hrest : ∀ q ∈ rest, ' ' ∉ q.1.data ∧ ' ' ∉ (valStr q.2).data :=
      fun q hq => hd q (List.mem_cons_of_mem p hq)
    have hkey : ' ' ∉ '-' :: p.1.data := by
      intro hm
      rcases List.mem_cons.mp hm with h1 | h2
      · exact absurd h1.symm (by decide)
      · exact hp.1 h2
    have e1 : P ++ serialChars (p :: rest) =
        P ++ ' ' :: (('-' :: p.1.data) ++
          ' ' :: ((valStr p.2).data ++ serialChars rest)) := by
      simp [serialChars]
    rw [e1, splitSp_append, splitSp_append,
      splitSp_no_space _ hkey, ih hrest ((valStr p.2).data),
      splitSp_no_space _ hp.2]
    simp [flagTokens]

lemma pairsToConfig_flagTokens (d : Config) :
    pairsToConfig (flagTokens d) =
      d.map fun p => (p.1, ConfigVal.str (valStr p.2)) := by
  induction d with
  | nil => rfl
  | cons p rest ih =>
    simp only [flagTokens, pairsToConfig, ih, List.map_cons, List.drop_one,
      List.tail_cons, string_mk_data]

lemma serialFoldl_data (d : Config) (c0 : String) :
    (d.foldl (fun acc p => acc ++ " -" ++ p.1 ++ " " ++ valStr p.2) c0).data =
      c0.data ++ serialChars d := by
  induction d generalizing c0 with
  | nil => simp [serialChars]
  | cons p rest ih =>
    simp only [List.foldl_cons, ih, serialChars, String.data_append,
      List.append_assoc]
    rfl

lemma sjoin_data (fns : List String) :
    (sjoin " " fns).data = joinChars (fns.map String.data) := by
  induction fns with
  | nil => rfl
  | cons x rest ih =>
    cases rest with
    | nil => rfl
    | cons y ys =>
      have hsp : (" " : String).data = [' '] := rfl
      simp only [sjoin, joinChars, List.map_cons, String.data_append, ih,
        hsp, List.append_assoc, List.singleton_append]

lemma scanLines_spec (r : RunResult) (ls : List String)
    (hs : r.status = "success") (hm : r.error_msg = none) :
    (scanLines r ls).status =
      (if (ls.find? errLine).isSome then "error" else "success") ∧
    (scanLines r ls).error_msg = ls.find? errLine ∧
    (scanLines r ls).output = r.output ∧
    (scanLines r ls).warnings = r.warnings := by
  induction ls with
  | nil => simp [scanLines, hs, hm, List.find?]
  | cons l ls ih =>
    cases hl : errLine l with
    | true => simp [scanLines, hl, List.find?_cons]
    | false => simpa [scanLines, hl, List.find?_cons] using ih

lemma runStream_ok (c : String) (xml : Option String) (env : Env)
    (r : RunResult) (h : runStream c xml env = .ok r) :
    r.output = none ∧ r.warnings = none ∧
    r.status = (if (env.proc c).exitCode > 0 then "error" else "success") ∧
    (r.status = "success" → r.error_msg = none) := by
  unfold runStream at h
  by_cases hx : (env.proc c).exitCode > 0
  · rw [if_pos hx] at h
    cases xml with
    | none =>
      cases h
      simp [hx]
    | some nm =>
      have h2 : (match env.xml nm with
        | none => (.error .xmlParseError : Except PyError RunResult)
        | some doc =>
          .ok { status := "error", error_msg := doc.errorMsgParam }) =
          .ok r := h
      cases hxml : env.xml nm with
      | none => rw [hxml] at h2; cases h2
      | some doc =>
        rw [hxml] at h2
        cases h2
        simp [hx]
  · rw [if_neg hx] at h
    cases h
    simp [hx]

lemma runWarnings_ok (xml fr : Option String) (env : Env)
    (r1 r2 : RunResult) (h : runWarnings xml fr env r1 = .ok r2) :
    r2.status = r1.status ∧ r2.error_msg = r1.error_msg ∧
    r2.output = r1.output := by
  cases xml with
  | none => cases h; exact ⟨rfl, rfl, rfl⟩
  | some nm0 =>
    simp only [runWarnings] at h
    cases hxml : env.xml (xmlFrameName nm0 fr) with
    | none =>
      rw [hxml] at h
      exact Except.noConfusion h
    | some doc =>
      rw [hxml] at h
      have h3 : (match doc.warningsRows with
        | none => (Except.error PyError.tableReadError : Except PyError RunResult)
        | some rows =>
          Except.ok { r1 with
            warnings := some ⟨rows, some (xmlFrameName nm0 fr)⟩ }) =
          Except.ok r2 := h
      cases hw : doc.warningsRows with
      | none =>
        rw [hw] at h3
        exact Except.noConfusion h3
      | some rows =>
        rw [hw] at h3
        cases h3
        exact ⟨rfl, rfl, rfl⟩

lemma runRaise_ok (code : String) (re : Bool) (r2 r : RunResult)
    (h : runRaise code re r2 = .ok r) : r = r2 := by
  unfold runRaise at h
  by_cases hc : (r2.status == "error" && re) = true
  · rw [if_pos hc] at h; cases h
  · rw [if_neg hc] at h; cases h; rfl

lemma runWarnings_fail (nm : String) (fr : Option String) (env : Env)
    (r1 : RunResult) (hfail : env.xml (xmlFrameName nm fr) = none) :
    runWarnings (some nm) fr env r1 = .error .xmlParseError := by
  simp only [runWarnings, hfail]

lemma runRest_ok (code : String) (xml : Option String) (re : Bool)
    (fr : Option String) (env : Env) (step1 : Except PyError RunResult)
    (r : RunResult) (h : runRest code xml re fr env step1 = .ok r) :
    ∃ r1, step1 = .ok r1 ∧ r.status = r1.status ∧
      r.error_msg = r1.error_msg ∧ r.output = r1.output := by
  cases step1 with
  | error e => exact Except.noConfusion h
  | ok r1 =>
    refine ⟨r1, rfl, ?_⟩
    have h2 : (match runWarnings xml fr env r1 with
      | .error e => (Except.error e : Except PyError RunResult)
      | .ok r2 => runRaise code re r2) = .ok r := h
    cases hw : runWarnings xml fr env r1 with
    | error e =>
      rw [hw] at h2
      exact Except.noConfusion h2
    | ok r2 =>
      rw [hw] at h2
      have h4 : runRaise code re r2 = .ok r := h2
      have heq := runRaise_ok code re r2 r h4
      obtain ⟨w1, w2, w3⟩ := runWarnings_ok xml fr env r1 r2 hw
      exact ⟨by rw [heq, w1], by rw [heq, w2], by rw [heq, w3]⟩

lemma resolveCmd_eq (kw : BuildKwargs) (c0 e : String)
    (hcmd : kw.cmd = none) (hcode : kw.code = some c0)
    (hlk : lookupCode c0 = some e) : resolveCmd kw = .ok e := by
  simp only [resolveCmd, hcmd, hcode, hlk]

lemma finishCmd_ok (kw : BuildKwargs) (cfg : Config) (fns : List String)
    (c0 e : String) (hcmd : kw.cmd = none) (hcode : kw.code = some c0)
    (hlk : lookupCode c0 = some e) (hne : ¬ e = "") :
    ∃ c kw2, finishCmd kw cfg fns = .ok (c, kw2) := by
  unfold finishCmd
  rw [resolveCmd_eq kw c0 e hcmd hcode hlk]
  simp only [hne, if_false]
  exact ⟨_, _, rfl⟩

lemma build_sx_params (t : String) (ps : List String) (d : Config)
    (fns : List String) :
    build_cmd (mkAstromatic "SExtractor" (some t) none none false none) fns
      { params := some ps } { store := [d], files := [], warns := [] } =
      ({ store :=
          [dictInsert d "PARAMETERS_NAME" (.str (pyJoin t "sex.param"))],
         files := [(pyJoin t "sex.param", ps)],
         warns := if dictContains d "PARAMETERS_NAME" then [multiParamMsg]
           else [] },
       finishCmd
         (mergeKwargs (mkAstromatic "SExtractor" (some t) none none false none)
           { params := some ps })
         (dictInsert d "PARAMETERS_NAME" (.str (pyJoin t "sex.param")))
         fns) := by
  by_cases hPN : dictContains d "PARAMETERS_NAME" <;>
    simp [build_cmd, hPN, mkAstromatic, mergeKwargs, defaultConfigRef]

lemma append_dv_ne_sex (x : String) : x ++ "-v" ≠ "sex" := by
  intro he
  have hd := congrArg String.data he
  rw [String.data_append] at hd
  have h1 : (x.data ++ ("-v" : String).data).getLast? = some 'v' := by
    have h2 : ("-v" : String).data = ['-', 'v'] := rfl
    rw [h2, show x.data ++ ['-', 'v'] = (x.data ++ ['-']) ++ ['v'] by simp]
    exact List.getLast?_concat _
  rw [hd] at h1
  have h3 : ("sex" : String).data = ['s', 'e', 'x'] := rfl
  rw [h3] at h1
  exact absurd h1 (by decide)

/-- Claim C1, evaluation at the failing input: a per-frame execution
(`run_frames`) over the single frame `[1]` with `raise_error=False`
whose spawned process exits with status 2 is flagged as an error by the
per-frame run itself (second conjunct), the command executed for the
frame being exactly the frame-suffixed one (third conjunct), yet the
combined Outcome Record returned by `run_frames` carries the hardcoded
aggregate status `success` (first conjunct) — contradicting the claim
that the aggregate status is `error` when some frame's run was flagged
as error. -/
theorem C1_frames_aggregate_eval :
    (run_frames instSW ["img.fits"] none [1] false {} fsEmpty (envExit 2)).2 =
      .ok { status := "success", error_msg := none, output := none,
            warnings := none } ∧
    frameCmd "swarp img.fits" ["img.fits"] none none none 1 =
      "swarp img.fits[1]" ∧
    runCmd instSW "swarp img.fits[1]" false none false (some "1")
        (envExit 2) =
      .ok { status := "error", error_msg := none, output := none,
            warnings := none } :=
  ⟨rfl, rfl, rfl⟩

/-- Claim C2, counterexample: with a known XML report path whose parse
fails, the invocation does abort — `runCmd` propagates the parse
exception instead of returning an Outcome Record without the `warnings`
field, contrary to the claim. -/
theorem C2_cex :
    runCmd instSW "swarp f.fits" false (some "log.xml") false none
      (envExit 0) = .error .xmlParseError := rfl

/-- Claim C2 as amended: for every invocation where an XML report path
is known but the XML file fails to parse, the parse exception
propagates and the invocation aborts with it; no Outcome Record is
returned to the caller. -/
theorem C2_parse_failure_aborts (self : Astromatic) (c : String) (so : Bool)
    (nm : String) (re : Bool) (fr : Option String) (env : Env)
    (hfail : ∀ p, env.xml p = none) :
    runCmd self c so (some nm) re fr env = .error .xmlParseError := by
  cases so with
  | true =>
    simp only [runCmd, runRest]
    rw [runWarnings_fail nm fr env _ (hfail _)]
  | false =>
    simp only [runCmd]
    by_cases hx : (env.proc c).exitCode > 0
    · have hs : runStream c (some nm) env = .error .xmlParseError := by
        simp only [runStream, if_pos hx, hfail nm]
      rw [hs]
      rfl
    · have hs : runStream c (some nm) env = .ok { status := "success" } := by
        simp only [runStream, if_neg hx]
      rw [hs]
      simp only [runRest]
      rw [runWarnings_fail nm fr env _ (hfail _)]

/-- Witness for C2: the amended theorem applied at a concrete
captured-mode invocation with an unparseable XML report. -/
theorem C2_witness :
    runCmd instSW "swarp f.fits" true (some "log.xml") false none
      (envExit 0) = .error .xmlParseError :=
  C2_parse_failure_aborts instSW "swarp f.fits" true "log.xml" false none
    (envExit 0) (fun _ => rfl)

/-- Claim C3, evaluation at the failing input: a SExtractor command
build with an inline `params` list and no configured temp directory
(`temp_path=None` on the instance and not passed per call) does not
raise the intended `AstromaticError` — the guard is dead because the
attribute-merge loop always inserts the `temp_path` key — and instead
crashes with the `TypeError` from `os.path.join(None, 'sex.param')`,
with no filesystem writes performed. -/
theorem C3_temp_path_eval :
    build_cmd instSX ["img.fits"] { params := some ["FLUX_AUTO"] } fsEmpty =
      (fsEmpty, .error .typeError) := rfl

/-- Claim C4: in streamed mode (`store_output` false) the status of a
returned Outcome Record is derived solely from the process exit code —
`success` for 0 and `error` for any nonzero exit code (exit codes being
nonnegative; Python's negative `returncode` values denote signal
termination, not an exit code) — and the record never contains an
`output` field. -/
theorem C4_streamed_status (self : Astromatic) (c : String)
    (xml : Option String) (re : Bool) (fr : Option String) (env : Env)
    (r : RunResult) (h : runCmd self c false xml re fr env = .ok r)
    (hexit : 0 ≤ (env.proc c).exitCode) :
    r.status = (if (env.proc c).exitCode ≠ 0 then "error" else "success") ∧
    r.output = none := by
  simp only [runCmd] at h
  obtain ⟨r1, hs, f1, f2, f3⟩ := runRest_ok _ _ _ _ _ _ _ h
  obtain ⟨o1, w1, st, sm⟩ := runStream_ok c xml env r1 hs
  constructor
  · rw [f1, st]
    by_cases hx : (env.proc c).exitCode > 0
    · rw [if_pos hx, if_pos (by omega)]
    · rw [if_neg hx, if_neg (by omega)]
  · rw [f3, o1]

/-- Witness for C4: a streamed-mode execution of a process exiting with
code 1 yields status `error` and no `output` field. -/
theorem C4_witness :
    ({ status := "error", error_msg := none, output := none,
       warnings := none } : RunResult).status =
      (if ((envExit 1).proc "c").exitCode ≠ 0 then "error" else "success") ∧
    ({ status := "error", error_msg := none, output := none,
       warnings := none } : RunResult).output = none :=
  C4_streamed_status instSW "c" none false none (envExit 1) _ rfl (by decide)

/-- Claim C5: in captured mode (`store_output` true) a returned Outcome
Record has status `error` exactly when some captured output line
case-insensitively contains the substring `error`; the first such line
(in output order) is its `error_msg` (`none` when there is none); and
the captured output lines are always stored in the `output` field. -/
theorem C5_captured_status (self : Astromatic) (c : String)
    (xml : Option String) (re : Bool) (fr : Option String) (env : Env)
    (r : RunResult) (h : runCmd self c true xml re fr env = .ok r) :
    (r.status = "error" ↔ ∃ l ∈ (env.proc c).outputLines, errLine l = true) ∧
    r.error_msg = ((env.proc c).outputLines).find? errLine ∧
    r.output = some (env.proc c).outputLines := by
  simp only [runCmd] at h
  obtain ⟨r1, hs, f1, f2, f3⟩ := runRest_ok _ _ _ _ _ _ _ h
  cases hs
  obtain ⟨s1, s2, s3, s4⟩ := scanLines_spec
    { status := "success", error_msg := none,
      output := some (env.proc c).outputLines, warnings := none }
    (env.proc c).outputLines rfl rfl
  refine ⟨?_, ?_, ?_⟩
  · rw [f1, s1]
    constructor
    · intro he
      by_cases hfind : (((env.proc c).outputLines).find? errLine).isSome
      · exact List.find?_isSome.mp hfind
      · rw [if_neg hfind] at he
        exact absurd he (by decide)
    · intro hex
      rw [if_pos (List.find?_isSome.mpr hex)]
  · rw [f2, s2]
  · rw [f3, s3]

/-- Witness for C5: a captured-mode execution whose output contains the
line `Error: bad pixel` yields status `error`, that line as
`error_msg`, and the full output stored. -/
theorem C5_witness :
    (({ status := "error", error_msg := some "Error: bad pixel",
        output := some ["ok", "Error: bad pixel"], warnings := none } :
          RunResult).status = "error" ↔
      ∃ l ∈ ((envOut ["ok", "Error: bad pixel"]).proc "sex f.fits").outputLines,
        errLine l = true) ∧
    ({ status := "error", error_msg := some "Error: bad pixel",
       output := some ["ok", "Error: bad pixel"], warnings := none } :
         RunResult).error_msg =
      (((envOut ["ok", "Error: bad pixel"]).proc "sex f.fits").outputLines).find?
        errLine ∧
    ({ status := "error", error_msg := some "Error: bad pixel",
       output := some ["ok", "Error: bad pixel"], warnings := none } :
         RunResult).output =
      some ((envOut ["ok", "Error: bad pixel"]).proc "sex f.fits").outputLines :=
  C5_captured_status instSW "sex f.fits" none false none
    (envOut ["ok", "Error: bad pixel"]) _ rfl

/-- Claim C6: for a SExtractor command build, (i) when neither an
inline `params` list nor a `PARAMETERS_NAME` config entry is available,
`build_cmd` raises `AstromaticError` (the spec's `ConfigurationError`)
with the world unchanged — in particular no filesystem writes and no
warnings; (ii) when both are supplied (and a temp path is configured),
the inline list takes precedence — `PARAMETERS_NAME` is overwritten
with the generated parameter-file path, the file is written — and only
a non-fatal warning is emitted while the build succeeds. -/
theorem C6_params_requirement (self : Astromatic) (fns : List String)
    (kw : BuildKwargs) (fs : FS) :
    ((mergeKwargs self kw).code = some "SExtractor" →
      (mergeKwargs self kw).params = none →
      dictContains
        (fs.store.getD ((mergeKwargs self kw).config.getD defaultConfigRef) [])
        "PARAMETERS_NAME" = false →
      build_cmd self fns kw fs = (fs, .error (.astromaticError noParamsMsg))) ∧
    (∀ ps t,
      (mergeKwargs self kw).code = some "SExtractor" →
      (mergeKwargs self kw).params = some ps →
      (mergeKwargs self kw).temp_path = some (some t) →
      dictContains
        (fs.store.getD ((mergeKwargs self kw).config.getD defaultConfigRef) [])
        "PARAMETERS_NAME" = true →
      (mergeKwargs self kw).cmd = none →
      (build_cmd self fns kw fs).1.warns = fs.warns ++ [multiParamMsg] ∧
      (build_cmd self fns kw fs).1.files =
        fs.files ++ [(pyJoin t "sex.param", ps)] ∧
      dictLookup
        ((build_cmd self fns kw fs).1.store.getD
          ((mergeKwargs self kw).config.getD defaultConfigRef) [])
        "PARAMETERS_NAME" = some (.str (pyJoin t "sex.param")) ∧
      ∃ c kw2, (build_cmd self fns kw fs).2 = .ok (c, kw2)) := by
  constructor
  · intro hcode hparams hcont
    rw [List.getD_eq_getElem?_getD] at hcont
    simp [build_cmd, hcode, hparams, hcont]
  · intro ps t hcode hparams htemp hcont hcmd
    have href : (mergeKwargs self kw).config.getD defaultConfigRef <
        fs.store.length := by
      by_contra hge
      push_neg at hge
      have hnil : fs.store.getD
          ((mergeKwargs self kw).config.getD defaultConfigRef) [] = [] := by
        rw [List.getD_eq_getElem?_getD, List.getElem?_eq_none hge]
        rfl
      rw [hnil] at hcont
      simp [dictContains] at hcont
    have hb : build_cmd self fns kw fs =
        ({ store := fs.store.set
            ((mergeKwargs self kw).config.getD defaultConfigRef)
            (dictInsert
              (fs.store.getD
                ((mergeKwargs self kw).config.getD defaultConfigRef) [])
              "PARAMETERS_NAME" (.str (pyJoin t "sex.param"))),
           files := fs.files ++ [(pyJoin t "sex.param", ps)],
           warns := fs.warns ++ [multiParamMsg] },
         finishCmd (mergeKwargs self kw)
           (dictInsert
             (fs.store.getD
               ((mergeKwargs self kw).config.getD defaultConfigRef) [])
             "PARAMETERS_NAME" (.str (pyJoin t "sex.param")))
           fns) := by
      rw [List.getD_eq_getElem?_getD] at hcont
      simp [build_cmd, hcode, hparams, htemp, hcont]
    refine ⟨by rw [hb], by rw [hb], ?_, ?_⟩
    · rw [hb]
      have hget : (fs.store.set
          ((mergeKwargs self kw).config.getD defaultConfigRef)
          (dictInsert
            (fs.store.getD
              ((mergeKwargs self kw).config.getD defaultConfigRef) [])
            "PARAMETERS_NAME" (.str (pyJoin t "sex.param")))).getD
          ((mergeKwargs self kw).config.getD defaultConfigRef) [] =
          dictInsert
            (fs.store.getD
              ((mergeKwargs self kw).config.getD defaultConfigRef) [])
            "PARAMETERS_NAME" (.str (pyJoin t "sex.param")) := by
        rw [List.getD_eq_getElem?_getD, List.getElem?_set_self
          (by simpa using href)]
        rfl
      rw [hget]
      exact dictLookup_insert_self _ _ _
    · rw [hb]
      exact finishCmd_ok _ _ _ "SExtractor" "sex" hcmd hcode rfl (by decide)

/-- Witness for C6: both parts of the theorem at concrete inputs — a
SExtractor instance with an empty config and no params raises the
configuration error without touching the world, and a build given both
an inline list and a `PARAMETERS_NAME` entry succeeds with exactly one
warning, the generated file, and the overwritten entry. -/
theorem C6_witness :
    build_cmd instSX ["img.fits"] {} fsEmpty =
      (fsEmpty, .error (.astromaticError noParamsMsg)) ∧
    ((build_cmd instSX ["img.fits"]
        { params := some ["X"], temp_path := some (some "/tmp") }
        { store := [[("PARAMETERS_NAME", ConfigVal.str "old.param")]],
          files := [], warns := [] }).1.warns = [] ++ [multiParamMsg] ∧
      (build_cmd instSX ["img.fits"]
        { params := some ["X"], temp_path := some (some "/tmp") }
        { store := [[("PARAMETERS_NAME", ConfigVal.str "old.param")]],
          files := [], warns := [] }).1.files =
        [] ++ [(pyJoin "/tmp" "sex.param", ["X"])] ∧
      dictLookup
        ((build_cmd instSX ["img.fits"]
          { params := some ["X"], temp_path := some (some "/tmp") }
          { store := [[("PARAMETERS_NAME", ConfigVal.str "old.param")]],
            files := [], warns := [] }).1.store.getD
          ((mergeKwargs instSX
            { params := some ["X"],
              temp_path := some (some "/tmp") }).config.getD
            defaultConfigRef) [])
        "PARAMETERS_NAME" = some (.str (pyJoin "/tmp" "sex.param")) ∧
      ∃ c kw2,
        (build_cmd instSX ["img.fits"]
          { params := some ["X"], temp_path := some (some "/tmp") }
          { store := [[("PARAMETERS_NAME", ConfigVal.str "old.param")]],
            files := [], warns := [] }).2 = .ok (c, kw2)) :=
  ⟨(C6_params_requirement instSX ["img.fits"] {} fsEmpty).1 rfl rfl rfl,
   (C6_params_requirement instSX ["img.fits"]
      { params := some ["X"], temp_path := some (some "/tmp") }
      { store := [[("PARAMETERS_NAME", ConfigVal.str "old.param")]],
        files := [], warns := [] }).2 ["X"] "/tmp" rfl rfl rfl rfl rfl⟩

/-- Claim C8: on every execution path — captured mode, streamed mode,
or per-frame — an Outcome Record returned with status `success` never
carries an `error_msg`; and an `error` status record may lack
`error_msg` (third conjunct: a streamed run with nonzero exit, no XML
report and `raise_error` off yields an error record with no message). -/
theorem C8_success_no_error_msg :
    (∀ (self : Astromatic) (c : String) (so : Bool) (xml : Option String)
        (re : Bool) (fr : Option String) (env : Env) (r : RunResult),
      runCmd self c so xml re fr env = .ok r →
      r.status = "success" → r.error_msg = none) ∧
    (∀ (self : Astromatic) (fns : List String) (code : Option String)
        (frames : List Int) (re : Bool) (kw : BuildKwargs) (fs fs2 : FS)
        (env : Env) (r : RunResult),
      run_frames self fns code frames re kw fs env = (fs2, .ok r) →
      r.status = "success" → r.error_msg = none) ∧
    runCmd instSW "swarp x.fits" false none false none (envExit 3) =
      .ok { status := "error", error_msg := none, output := none,
            warnings := none } := by
  refine ⟨?_, ?_, rfl⟩
  · intro self c so xml re fr env r h hsucc
    cases so with
    | true =>
      simp only [runCmd] at h
      obtain ⟨r1, hs, f1, f2, f3⟩ := runRest_ok _ _ _ _ _ _ _ h
      cases hs
      obtain ⟨s1, s2, s3, s4⟩ := scanLines_spec
        { status := "success", error_msg := none,
          output := some (env.proc c).outputLines, warnings := none }
        (env.proc c).outputLines rfl rfl
      rw [f2, s2]
      by_cases hfind : (((env.proc c).outputLines).find? errLine).isSome
      · rw [f1, s1, if_pos hfind] at hsucc
        exact absurd hsucc (by decide)
      · rw [Option.not_isSome_iff_eq_none] at hfind
        rw [hfind]
    | false =>
      simp only [runCmd] at h
      obtain ⟨r1, hs, f1, f2, f3⟩ := runRest_ok _ _ _ _ _ _ _ h
      obtain ⟨o1, w1, st, sm⟩ := runStream_ok c xml env r1 hs
      rw [f2]
      exact sm (by rw [← f1, hsucc])
  · intro self fns code frames re kw fs fs2 env r h hsucc
    simp only [run_frames] at h
    split at h
    · simp at h
    · split at h
      · simp at h
      · split at h
        · simp at h
        · simp only [Prod.mk.injEq, Except.ok.injEq] at h
          rw [← h.2]

/-- Witness for C8: the invariant applied to a concrete successful
streamed run. -/
theorem C8_witness :
    ({ status := "success", error_msg := none, output := none,
       warnings := none } : RunResult).error_msg = none :=
  C8_success_no_error_msg.1 instSW "c" false none false none (envExit 0) _
    rfl rfl

/-- Claim C9: a SExtractor build with an inline `params` list mutates
the configuration dictionary it aliases in place — after the build the
instance's stored dict (which is the caller's dict, referenced through
the store) contains the generated `PARAMETERS_NAME` entry (second
conjunct), a later build on the same instance with no params succeeds
because it observes the inserted entry (third conjunct), and two
instances constructed without a config share the constructor's mutable
default dict (fourth conjunct). -/
theorem C9_config_mutation (t : String) (ps : List String) (d : Config)
    (fns : List String) :
    (∃ c kw2,
      (build_cmd (mkAstromatic "SExtractor" (some t) none none false none)
        fns { params := some ps }
        { store := [d], files := [], warns := [] }).2 = .ok (c, kw2)) ∧
    dictLookup
      ((build_cmd (mkAstromatic "SExtractor" (some t) none none false none)
        fns { params := some ps }
        { store := [d], files := [], warns := [] }).1.store.getD
        defaultConfigRef []) "PARAMETERS_NAME" =
      some (.str (pyJoin t "sex.param")) ∧
    (∃ c kw2,
      (build_cmd (mkAstromatic "SExtractor" (some t) none none false none)
        fns {}
        (build_cmd (mkAstromatic "SExtractor" (some t) none none false none)
          fns { params := some ps }
          { store := [d], files := [], warns := [] }).1).2 = .ok (c, kw2)) ∧
    (mkAstromatic "SExtractor" none none none false none).configRef =
      (mkAstromatic "SCAMP" none none none false none).configRef := by
  refine ⟨?_, ?_, ?_, rfl⟩
  · rw [build_sx_params]
    exact finishCmd_ok
      (mergeKwargs (mkAstromatic "SExtractor" (some t) none none false none)
        { params := some ps }) _ _ "SExtractor" "sex" rfl rfl rfl (by decide)
  · rw [build_sx_params]
    exact dictLookup_insert_self _ _ _
  · rw [build_sx_params]
    have h2 : build_cmd (mkAstromatic "SExtractor" (some t) none none false none)
        fns {}
        { store :=
            [dictInsert d "PARAMETERS_NAME" (.str (pyJoin t "sex.param"))],
          files := [(pyJoin t "sex.param", ps)],
          warns := if dictContains d "PARAMETERS_NAME" then [multiParamMsg]
            else [] } =
        ({ store :=
            [dictInsert d "PARAMETERS_NAME" (.str (pyJoin t "sex.param"))],
           files := [(pyJoin t "sex.param", ps)],
           warns := if dictContains d "PARAMETERS_NAME" then [multiParamMsg]
             else [] },
         finishCmd
           (mergeKwargs (mkAstromatic "SExtractor" (some t) none none false none)
             {})
           (dictInsert d "PARAMETERS_NAME" (.str (pyJoin t "sex.param")))
           fns) := by
      simp [build_cmd, mkAstromatic, mergeKwargs, defaultConfigRef,
        dictContains_insert_self]
    rw [h2]
    exact finishCmd_ok
      (mergeKwargs (mkAstromatic "SExtractor" (some t) none none false none)
        {}) _ _ "SExtractor" "sex" rfl rfl rfl (by decide)

/-- Claim C10: whatever the `cmd` argument and tool identity, whenever
`get_version` reaches the spawn it passes the fixed string `sex` to
`subprocess.Popen`, and the version-query command it assembled from the
resolved executable plus ` -v` is never the command actually executed. -/
theorem C10_get_version_spawn (self : Astromatic) (cmd : Option String)
    (s a : String) (h : get_version_cmds self cmd = .ok (s, a)) :
    s = "sex" ∧ a ≠ s := by
  simp only [get_version_cmds] at h
  cases hr : get_version_resolve self cmd with
  | error e =>
    rw [hr] at h
    exact Except.noConfusion h
  | ok c =>
    rw [hr] at h
    have h2 : (if c = ""
        then (Except.error PyError.indexError : Except PyError (String × String))
        else Except.ok
          ("sex", (if ¬ pyEndsWith c " " then c ++ " " else c) ++ "-v")) =
        Except.ok (s, a) := h
    by_cases hc : c = ""
    · rw [if_pos hc] at h2
      exact Except.noConfusion h2
    · rw [if_neg hc] at h2
      have hp : ("sex", (if ¬ pyEndsWith c " " then c ++ " " else c) ++ "-v") =
          (s, a) := by
        cases h2
        rfl
      have hs : s = "sex" := (congrArg Prod.fst hp).symm
      have ha : a = (if ¬ pyEndsWith c " " then c ++ " " else c) ++ "-v" :=
        (congrArg Prod.snd hp).symm
      refine ⟨hs, ?_⟩
      rw [ha, hs]
      exact append_dv_ne_sex _

/-- Witness for C10: the theorem applied to a concrete overridden
command; the spawned string is `sex` and differs from the assembled
`my/swarp -v`. -/
theorem C10_witness :
    ("sex" : String) = "sex" ∧ ("my/swarp -v" : String) ≠ "sex" :=
  C10_get_version_spawn instSW (some "my/swarp") "sex" "my/swarp -v" rfl

/-- Claim C7, counterexample: for the configuration mapping
`{A: "x y"}` (a value containing a space), building the command gives
`swarp f.fits -A x y`, and re-parsing its flag tokens recovers
`{A: "x"}`, not the original mapping — the round-trip fails because
values are serialized verbatim with no quoting. -/
theorem C7_cex :
    (build_cmd instSW ["f.fits"] {}
        { store := [[("A", ConfigVal.str "x y")]], files := [],
          warns := [] }).2 =
      .ok ("swarp f.fits -A x y", mergeKwargs instSW {}) ∧
    parseCmdConfig "swarp f.fits -A x y" (1 + 1) =
      [("A", ConfigVal.str "x")] ∧
    ([("A", ConfigVal.str "x")] : Config) ≠ [("A", ConfigVal.str "x y")] :=
  ⟨rfl, rfl, by decide⟩

/-- Claim C7 as amended: for every configuration mapping whose keys and
serialized values are free of space characters, and every nonempty list
of space-free filenames, building a command and re-parsing the flag
tokens of the produced command string recovers the mapping with every
value in its serialized string form (strings verbatim, booleans as
their `Y`/`N` tokens). -/
theorem C7_roundtrip_amended (d : Config) (fns : List String)
    (c : String) (kw2 : BuildKwargs)
    (hfns : fns ≠ [])
    (hfsp : ∀ f ∈ fns, ' ' ∉ f.data)
    (hd : ∀ p ∈ d, ' ' ∉ p.1.data ∧ ' ' ∉ (valStr p.2).data)
    (h : (build_cmd instSW fns {}
        { store := [d], files := [], warns := [] }).2 = .ok (c, kw2)) :
    parseCmdConfig c (1 + fns.length) =
      d.map fun p => (p.1, ConfigVal.str (valStr p.2)) := by
  have hb : (build_cmd instSW fns {}
      { store := [d], files := [], warns := [] }).2 =
      finishCmd (mergeKwargs instSW {}) d fns := rfl
  have hc2 : finishCmd (mergeKwargs instSW {}) d fns =
      .ok (d.foldl (fun acc p => acc ++ " -" ++ p.1 ++ " " ++ valStr p.2)
        ("swarp " ++ sjoin " " fns), mergeKwargs instSW {}) := rfl
  rw [hb, hc2] at h
  cases h
  have hdata : (d.foldl (fun acc p => acc ++ " -" ++ p.1 ++ " " ++ valStr p.2)
      ("swarp " ++ sjoin " " fns)).data =
      ("swarp".data ++ ' ' :: joinChars (fns.map String.data)) ++
        serialChars d := by
    rw [serialFoldl_data, String.data_append, sjoin_data,
      show ("swarp " : String).data = "swarp".data ++ [' '] from rfl,
      List.append_assoc]
    rfl
  have hmapsp : ∀ x ∈ fns.map String.data, ' ' ∉ x := by
    intro x hx
    obtain ⟨f, hf, rfl⟩ := List.mem_map.mp hx
    exact hfsp f hf
  have hmapne : fns.map String.data ≠ [] := by
    intro hmm
    exact hfns (List.map_eq_nil_iff.mp hmm)
  simp only [parseCmdConfig]
  rw [hdata, splitSp_serial d hd _, splitSp_append,
    splitSp_no_space ("swarp".data) (by decide),
    splitSp_join (fns.map String.data) hmapne hmapsp,
    show ["swarp".data] ++ fns.map String.data ++ flagTokens d =
      ("swarp".data :: fns.map String.data) ++ flagTokens d by simp,
    show 1 + fns.length = ("swarp".data :: fns.map String.data).length by
      simp [Nat.add_comm],
    List.drop_left]
  exact pairsToConfig_flagTokens d

/-- Witness for C7: the amended theorem at the mapping
`{A: "x", B: true}` and filename `f.fits` — re-parsing the built
command recovers the mapping with the boolean serialized as `Y`. -/
theorem C7_witness :
    parseCmdConfig "swarp f.fits -A x -B Y"
      (1 + (["f.fits"] : List String).length) =
      ([("A", ConfigVal.str "x"), ("B", ConfigVal.bool true)].map
        fun p => (p.1, ConfigVal.str (valStr p.2))) :=
  C7_roundtrip_amended
    [("A", ConfigVal.str "x"), ("B", ConfigVal.bool true)] ["f.fits"]
    "swarp f.fits -A x -B Y" (mergeKwargs instSW {})
    (by decide) (by decide) (by decide) rfl

end AstromaticWrapper
